import Mathlib

/-!
Verification development for the `rpa-elysium` plugin sandboxing subsystem
(`crates/rpa-plugin`): permission model (`permissions.rs`), host-call
mediation (`sandbox.rs`), and the plugin registry (`host.rs`).

Paths are modelled as an absolute-flag plus a list of components; the real
filesystem consulted by `Path::canonicalize` is modelled as an explicit
`FileSystem` value (current directory, existing files with contents,
existing directories), threaded through every function that in Rust
performs filesystem syscalls.
-/

/-- Model of a filesystem path: `std::path::PathBuf` as an absolute flag
plus the list of normal components (`..` and `.` appear literally, as they
do in a `PathBuf` that has not been canonicalised). -/
structure MPath where
  abs : Bool
  comps : List String
deriving DecidableEq, Repr

/-- Model of the host filesystem state consulted by `canonicalize`,
`std::fs::read`, `std::fs::write` and `std::fs::read_dir`. Keys of `files`
and members of `dirs` are fully resolved absolute component lists. -/
structure FileSystem where
  cwd : List String
  files : List (List String × List Nat)
  dirs : List (List String)
deriving DecidableEq, Repr

/-- One step of `..` / `.` resolution, as the OS path walk performs it
(`..` at the root stays at the root). -/
def normStep (acc : List String) (c : String) : List String :=
  if c = "." then acc
  else if c = ".." then acc.dropLast
  else acc ++ [c]

/-- Resolve `.` and `..` components of an absolute component list. -/
def normComps (cs : List String) : List String :=
  cs.foldl normStep []

/-- Absolute component list denoted by a path: relative paths are resolved
against the current directory, as the OS does. -/
def absComps (fs : FileSystem) (p : MPath) : List String :=
  if p.abs then p.comps else fs.cwd ++ p.comps

def FileSystem.existsPath (fs : FileSystem) (q : List String) : Bool :=
  fs.files.any (fun f => f.1 = q) || fs.dirs.any (fun d => d = q)

/-- Model of `Path::canonicalize`: resolves the path against the
filesystem and fails (returns `none`) when the resolved location does not
exist, exactly the condition under which the Rust call returns `Err`. -/
def canonicalize (fs : FileSystem) (p : MPath) : Option MPath :=
  let n := normComps (absComps fs p)
  if fs.existsPath n then some ⟨true, n⟩ else none

/-- Model of `Path::starts_with`: component-wise prefix, with the
absolute flag playing the role of the `RootDir` component. -/
def pathStartsWith (requested granted : MPath) : Bool :=
  requested.abs = granted.abs && granted.comps.isPrefixOf requested.comps

/-- `path_covers` from `permissions.rs`: canonicalise both paths, falling
back to the literal path when canonicalisation fails, then compare by
equality or component prefix. -/
def path_covers (fs : FileSystem) (granted requested : MPath) : Bool :=
  let g := (canonicalize fs granted).getD granted
  let r := (canonicalize fs requested).getD requested
  r = g || pathStartsWith r g

/-- The `Permission` enum from `permissions.rs`. -/
inductive Permission where
  | readPath (path : MPath)
  | writePath (path : MPath)
  | env (name : String)
  | allEnv
  | network (host : String) (port : Option Nat)
  | execute (command : String)
  | time
  | random
deriving DecidableEq, Repr

/-- Render a path the way `Path::display` renders the paths used here. -/
def renderPath (p : MPath) : String :=
  (if p.abs then "/" else "") ++ String.intercalate "/" p.comps

/-- `Permission::description` from `permissions.rs`. -/
def Permission.description : Permission → String
  | .readPath p => "read " ++ renderPath p
  | .writePath p => "write " ++ renderPath p
  | .env n => "env $" ++ n
  | .allEnv => "all environment variables"
  | .network h (some p) => "network " ++ h ++ ":" ++ toString p
  | .network h none => "network " ++ h
  | .execute c => "execute " ++ c
  | .time => "current time"
  | .random => "random/UUID generation"

/-- `Permission::covers` from `permissions.rs`: exact match first, then
directory-prefix coverage for paths, `AllEnv` over any `Env`, and a
portless `Network` grant over any port on the same host. -/
def Permission.covers (fs : FileSystem) (granted requested : Permission) : Bool :=
  if granted = requested then true
  else
    match granted, requested with
    | .readPath g, .readPath r => path_covers fs g r
    | .writePath g, .writePath r => path_covers fs g r
    | .allEnv, .env _ => true
    | .network h1 none, .network h2 _ => h1 = h2
    | _, _ => false

/-- `PermissionSet` from `permissions.rs`; the `HashSet` is modelled as a
list (every operation used below is insensitive to order and
multiplicity where the claims are concerned). -/
abbrev PermissionSet := List Permission

/-- `PermissionSet::check`: some granted permission covers the request. -/
def PermissionSet.check (fs : FileSystem) (s : PermissionSet) (requested : Permission) : Bool :=
  s.any (fun p => p.covers fs requested)

/-- `PermissionSet::check_all`: every requested permission is granted. -/
def PermissionSet.check_all (fs : FileSystem) (s requested : PermissionSet) : Bool :=
  requested.all (fun p => s.check fs p)

/-- `PermissionSet::missing`: the requested permissions that fail `check`. -/
def PermissionSet.missing (fs : FileSystem) (s requested : PermissionSet) : List Permission :=
  requested.filter (fun p => !(s.check fs p))

example :
    path_covers ⟨[], [], [["tmp"], ["tmp", "in"]]⟩
      ⟨true, ["tmp", "in"]⟩ ⟨true, ["tmp", "in", "..", "..", "etc", "passwd"]⟩ = true := by
  decide

example :
    path_covers ⟨[], [(["etc", "passwd"], [104]), (["tmp", "in", "a"], [])], [["tmp"], ["tmp", "in"]]⟩
      ⟨true, ["tmp", "in"]⟩ ⟨true, ["tmp", "in", "..", "..", "etc", "passwd"]⟩ = false := by
  decide

/-- The standard base64 alphabet, as in the `ALPHABET` constant of the
hand-rolled `base64` module in `sandbox.rs`. -/
def ALPHABET : List Char :=
  "ABCDEFGHIJKLMNOPQRSTUVWXYZabcdefghijklmnopqrstuvwxyz0123456789+/".toList

/-- The 24-bit accumulator of one 3-byte chunk: the loop
`n |= (byte as u32) << (16 - i * 8)` over the enumerated chunk. -/
def chunkWord (chunk : List Nat) : Nat :=
  chunk.enum.foldl (fun n ib => n ||| (ib.2 <<< (16 - ib.1 * 8))) 0

/-- Number of output characters before padding, from the
`match chunk.len()` in `sandbox.rs`. -/
def chunkChars (len : Nat) : Nat :=
  match len with
  | 3 => 4
  | 2 => 3
  | 1 => 2
  | _ => 0

/-- Encode one chunk of at most three bytes: emit
`ALPHABET[(n >> (18 - i*6)) & 0x3F]` for each output position, then pad
with `=` up to four characters. -/
def encodeChunk (chunk : List Nat) : List Char :=
  let n := chunkWord chunk
  let chars := chunkChars chunk.length
  ((List.range chars).map (fun i => ALPHABET.getD ((n >>> (18 - i * 6)) &&& 0x3F) 'A'))
    ++ (List.range (4 - chars)).map (fun _ => '=')

/-- `data.chunks(3)` from the encoder loop in `sandbox.rs`: successive
slices of three bytes, the last possibly shorter. -/
def chunks3 : List Nat → List (List Nat)
  | [] => []
  | [a] => [[a]]
  | [a, b] => [[a, b]]
  | a :: b :: c :: rest => [a, b, c] :: chunks3 rest

/-- `base64::Engine::encode` from `sandbox.rs`: the hand-rolled standard
base64 encoder. -/
def b64encode (data : List Nat) : String :=
  String.mk ((chunks3 data).map encodeChunk).flatten

example : b64encode [104, 105] = "aGk=" := by decide

/-- The `LogLevel` enum from `api.rs`. -/
inductive LogLevel where
  | debug
  | info
  | warn
  | error
deriving DecidableEq, Repr

/-- Model of the `serde_json::Value` payloads built by `handle_request`. -/
inductive Json where
  | null
  | bool (b : Bool)
  | num (n : Int)
  | str (s : String)
  | arr (xs : List Json)
  | obj (fields : List (String × Json))

/-- The `HostRequest` enum from `api.rs`. Paths arrive as strings in Rust
and are converted with `PathBuf::from`; here they are carried directly as
`MPath` values. -/
inductive HostRequest where
  | readFile (path : MPath)
  | writeFile (path : MPath) (content : List Nat)
  | listDir (path : MPath)
  | getEnv (name : String)
  | log (level : LogLevel) (message : String)
  | currentTime
  | generateUuid

/-- The `HostResponse` enum from `api.rs`. -/
inductive HostResponse where
  | success (data : Option Json)
  | error (message : String)
  | permissionDenied (permission : String)

/-- Observable side effects (syscalls and log appends) performed by the
host while handling one request. -/
inductive Effect where
  | fsRead (p : MPath)
  | fsWrite (p : MPath) (bytes : List Nat)
  | fsList (p : MPath)
  | envRead (n : String)
  | timeRead
  | uuidGen
  | logAppend (lvl : LogLevel) (msg : String)

/-- The ambient host world: filesystem, process environment, current
time, and the next fresh UUID. -/
structure World where
  fs : FileSystem
  env : List (String × String)
  nowTimestamp : Int
  nowIso : String
  freshUuid : String

/-- Model of `std::fs::read`: the OS resolves the path and returns the
file bytes, failing when no file exists at the resolved location. -/
def readFileFS (fs : FileSystem) (p : MPath) : Option (List Nat) :=
  (fs.files.find? (fun f => f.1 = normComps (absComps fs p))).map (fun f => f.2)

/-- Model of `std::fs::write`: succeeds when the parent directory exists
and the target is not an existing directory. -/
def writeFileFS (fs : FileSystem) (p : MPath) (bytes : List Nat) : Option FileSystem :=
  let n := normComps (absComps fs p)
  if fs.dirs.any (fun d => d = n.dropLast) && !(fs.dirs.any (fun d => d = n)) then
    some { fs with files := (n, bytes) :: fs.files.filter (fun f => f.1 ≠ n) }
  else
    none

/-- Model of `std::fs::read_dir`: the `{name, is_dir}` entries of an
existing directory. -/
def readDirFS (fs : FileSystem) (p : MPath) : Option (List (String × Bool)) :=
  let n := normComps (absComps fs p)
  if fs.dirs.any (fun d => d = n) then
    some
      ((fs.files.filterMap (fun f =>
          if f.1.dropLast = n ∧ f.1.length = n.length + 1 then
            (f.1.getLast?).map (fun name => (name, false))
          else none))
        ++ (fs.dirs.filterMap (fun d =>
          if d.dropLast = n ∧ d.length = n.length + 1 then
            (d.getLast?).map (fun name => (name, true))
          else none)))
  else
    none

/-- Model of `std::env::var`. -/
def envVar (env : List (String × String)) (name : String) : Option String :=
  (env.find? (fun e => e.1 = name)).map (fun e => e.2)

/-- `SandboxState` from `sandbox.rs`. `start_time.elapsed()` at the
moment of the current host call is modelled as `elapsedNs` nanoseconds. -/
structure SandboxState where
  permissions : PermissionSet
  logs : List (LogLevel × String)
  workDir : Option MPath
  elapsedNs : Nat
  timeoutMs : Nat

/-- The rendered message of `PluginError::Timeout(ms)`. -/
def timeoutMsg (ms : Nat) : String :=
  "Timeout: plugin execution exceeded " ++ toString ms ++ "ms"

/-- `SandboxState::check_timeout`: fails exactly when the elapsed time
strictly exceeds `timeout_ms` milliseconds. -/
def checkTimeout (st : SandboxState) : Bool :=
  st.elapsedNs > st.timeoutMs * 1000000

/-- `SandboxState::handle_request` from `sandbox.rs`: check the deadline
first, then dispatch on the request, checking the required permission
before performing the mediated effect. Returns the response, the updated
state, and the trace of performed side effects. -/
def handle_request (w : World) (st : SandboxState) (request : HostRequest) :
    HostResponse × SandboxState × List Effect :=
  if checkTimeout st then
    (.error (timeoutMsg st.timeoutMs), st, [])
  else
    match request with
    | .readFile path =>
      if !(st.permissions.check w.fs (.readPath path)) then
        (.permissionDenied ("read " ++ renderPath path), st, [])
      else
        match readFileFS w.fs path with
        | some content =>
          (.success (some (.obj [("content", .str (b64encode content)),
              ("size", .num content.length)])), st, [.fsRead path])
        | none =>
          (.error ("Failed to read file: " ++ renderPath path), st, [.fsRead path])
    | .writeFile path content =>
      if !(st.permissions.check w.fs (.writePath path)) then
        (.permissionDenied ("write " ++ renderPath path), st, [])
      else
        match writeFileFS w.fs path content with
        | some _ =>
          (.success (some (.obj [("bytes_written", .num content.length)])), st,
            [.fsWrite path content])
        | none =>
          (.error ("Failed to write file: " ++ renderPath path), st, [.fsWrite path content])
    | .listDir path =>
      if !(st.permissions.check w.fs (.readPath path)) then
        (.permissionDenied ("read " ++ renderPath path), st, [])
      else
        match readDirFS w.fs path with
        | some entries =>
          (.success (some (.obj [("entries",
              .arr (entries.map (fun e =>
                .obj [("name", .str e.1), ("is_dir", .bool e.2)])))])), st, [.fsList path])
        | none =>
          (.error ("Failed to list directory: " ++ renderPath path), st, [.fsList path])
    | .getEnv name =>
      if !(st.permissions.check w.fs (.env name)) then
        (.permissionDenied ("env $" ++ name), st, [])
      else
        match envVar w.env name with
        | some value => (.success (some (.obj [("value", .str value)])), st, [.envRead name])
        | none => (.success (some (.obj [("value", .null)])), st, [.envRead name])
    | .log level message =>
      (.success none, { st with logs := st.logs ++ [(level, message)] },
        [.logAppend level message])
    | .currentTime =>
      if !(st.permissions.check w.fs .time) then
        (.permissionDenied "time", st, [])
      else
        (.success (some (.obj [("timestamp", .num w.nowTimestamp),
            ("iso", .str w.nowIso)])), st, [.timeRead])
    | .generateUuid =>
      if !(st.permissions.check w.fs .random) then
        (.permissionDenied "random", st, [])
      else
        (.success (some (.obj [("uuid", .str w.freshUuid)])), st, [.uuidGen])

/-- The permission a mediated request requires (`none` for `Log`, which
is unmediated in `handle_request`). -/
def requiredPerm : HostRequest → Option Permission
  | .readFile p => some (.readPath p)
  | .writeFile p _ => some (.writePath p)
  | .listDir p => some (.readPath p)
  | .getEnv n => some (.env n)
  | .log _ _ => none
  | .currentTime => some .time
  | .generateUuid => some .random

/-- The permission string carried by the denial response of each
mediated request. -/
def deniedMsg : HostRequest → String
  | .readFile p => "read " ++ renderPath p
  | .writeFile p _ => "write " ++ renderPath p
  | .listDir p => "read " ++ renderPath p
  | .getEnv n => "env $" ++ n
  | .log _ _ => ""
  | .currentTime => "time"
  | .generateUuid => "random"

/-- The `PluginError` enum from `error.rs` (the variants the claims
touch). -/
inductive PluginError where
  | notFound (id : String)
  | loadFailed (msg : String)
  | executionFailed (msg : String)
  | permissionDeniedE (msg : String)
  | resourceLimitExceeded (msg : String)
  | timeout (ms : Nat)
  | wasm (msg : String)
deriving DecidableEq, Repr

/-- Outcome of a guest trap observed by `Sandbox::execute`:
the trap message, `store.get_fuel()` (`some r` when `consume_fuel` was
enabled because `fuel_limit` was set, `none`, i.e. `Err`, otherwise), and
whether the wall-clock deadline had elapsed when the trap surfaced. -/
structure TrapOutcome where
  message : String
  getFuel : Option Nat
  deadlineElapsed : Bool
deriving DecidableEq, Repr

/-- The trap-classification branch of `Sandbox::execute` in `sandbox.rs`:
`if store.get_fuel().unwrap_or(0) == 0` report `ResourceLimitExceeded`,
otherwise `ExecutionFailed` with the trap message. -/
def classifyTrap (t : TrapOutcome) : PluginError :=
  if t.getFuel.getD 0 = 0 then
    .resourceLimitExceeded "Instruction limit exceeded"
  else
    .executionFailed t.message

/-- Modelled from the spec (§4.3 step 8), the classification the claim
states: `ResourceLimitExceeded` when the instruction budget is exhausted
(fuel metering active and remaining fuel zero), `Timeout` (carrying the
deadline) when the deadline passed, otherwise `ExecutionFailed` with the
trap message. -/
def classifyTrapSpec (timeoutMs : Nat) (t : TrapOutcome) : PluginError :=
  if t.getFuel = some 0 then
    .resourceLimitExceeded "Instruction limit exceeded"
  else if t.deadlineElapsed then
    .timeout timeoutMs
  else
    .executionFailed t.message

/-- `SandboxConfig` from `sandbox.rs`. -/
structure SandboxConfigM where
  memoryLimit : Nat
  timeoutMs : Nat
  fuelLimit : Option Nat
  permissions : PermissionSet
  workDir : Option MPath
deriving DecidableEq, Repr

/-- `PluginConfig` from `host.rs` (the fields `load_plugin` reads; the
free-form per-plugin config map is irrelevant to the claims and
omitted). -/
structure PluginConfigM where
  path : String
  id : Option String
  enabled : Bool
  sandbox : SandboxConfigM
deriving DecidableEq, Repr

/-- Model of `Path::file_stem` on the plugin path string: the last
`/`-separated segment with its final extension removed. -/
def fileStem (path : String) : Option String :=
  (((path.splitOn "/").filter (fun s => s ≠ "")).getLast?).map (fun n =>
    let parts := n.splitOn "."
    if 2 ≤ parts.length ∧ parts.head? ≠ some "" then
      String.intercalate "." parts.dropLast
    else n)

/-- `PluginConfig::get_id` from `host.rs`: the explicit id, else the
filename stem, else `"unknown"`. -/
def PluginConfigM.get_id (c : PluginConfigM) : String :=
  c.id.getD ((fileStem c.path).getD "unknown")

/-- A compiled WASM module, abstracted to its function-export names. -/
structure ModuleM where
  exports : List String
deriving DecidableEq, Repr

/-- `PluginInstance` from `host.rs`. -/
structure PluginInstanceM where
  config : PluginConfigM
  metadataId : String
  module : ModuleM
  actions : List String
deriving DecidableEq, Repr

/-- The `plugins: HashMap<String, PluginInstance>` of `PluginHost`,
modelled as a key-unique association list. -/
abbrev Registry := List (String × PluginInstanceM)

def lookupReg (r : Registry) (id : String) : Option PluginInstanceM :=
  (r.find? (fun e => e.1 = id)).map (fun e => e.2)

/-- `HashMap::insert`: bind `id`, replacing any previous binding. -/
def insertReg (r : Registry) (id : String) (inst : PluginInstanceM) : Registry :=
  (id, inst) :: r.filter (fun e => e.1 ≠ id)

/-- `HashMap::remove`. -/
def removeReg (r : Registry) (id : String) : Registry :=
  r.filter (fun e => e.1 ≠ id)

/-- The load-time environment `load_plugin` interacts with:
`Sandbox::new` on the sandbox configuration and
`Sandbox::load_module_from_file` on the plugin path. -/
structure LoadEnv where
  sandboxNew : SandboxConfigM → Except PluginError Unit
  loadModuleFromFile : String → Except PluginError ModuleM

/-- The instance `load_plugin` stores on success: the config, metadata
keyed by the assigned id, the compiled module, and its function exports
with names starting in `_` excluded. -/
def mkInstance (c : PluginConfigM) (m : ModuleM) : PluginInstanceM :=
  ⟨c, c.get_id, m, m.exports.filter (fun n => !(n.startsWith "_"))⟩

/-- `PluginHost::load_plugin` from `host.rs`: reject disabled configs,
create the sandbox, compile the module, enumerate actions, then insert
the instance under the assigned id (replacing any previous binding). -/
def load_plugin (env : LoadEnv) (plugins : Registry) (config : PluginConfigM) :
    Except PluginError (Registry × String) :=
  if !config.enabled then
    .error (.loadFailed "Plugin is disabled")
  else
    let pluginId := config.get_id
    match env.sandboxNew config.sandbox with
    | .error e => .error e
    | .ok _ =>
      match env.loadModuleFromFile config.path with
      | .error e => .error e
      | .ok m => .ok (insertReg plugins pluginId (mkInstance config m), pluginId)

/-- `PluginHost::unload_plugin` from `host.rs`: remove the binding, or
fail with `NotFound`; the registry is returned alongside the outcome
because the removal persists even when a caller later fails. -/
def unload_plugin (plugins : Registry) (id : String) :
    Registry × Except PluginError Unit :=
  if (lookupReg plugins id).isSome then (removeReg plugins id, .ok ())
  else (plugins, .error (.notFound id))

/-- `PluginHost::reload_plugin` from `host.rs`: clone the stored config,
unload, then load; each `?` propagates the error while keeping the
registry mutations made so far. -/
def reload_plugin (env : LoadEnv) (plugins : Registry) (id : String) :
    Registry × Except PluginError Unit :=
  match lookupReg plugins id with
  | none => (plugins, .error (.notFound id))
  | some inst =>
    let u := unload_plugin plugins id
    match u.2 with
    | .error e => (u.1, .error e)
    | .ok _ =>
      match load_plugin env u.1 inst.config with
      | .error e => (u.1, .error e)
      | .ok p => (p.1, .ok ())

def b64idx (i : Nat) : Char :=
  ALPHABET.getD i 'A'

/-- The standard base64 definition (RFC 4648: standard alphabet, `=`
padding), stated by 6-bit groups of each 3-byte block; this is the
reference definition the spec's words describe, against which the
repository's encoder is compared. -/
def base64Std : List Nat → List Char
  | [] => []
  | [b0] => [b64idx (b0 / 4), b64idx (b0 % 4 * 16), '=', '=']
  | [b0, b1] =>
    [b64idx (b0 / 4), b64idx (b0 % 4 * 16 + b1 / 16), b64idx (b1 % 16 * 4), '=']
  | b0 :: b1 :: b2 :: rest =>
    b64idx (b0 / 4) :: b64idx (b0 % 4 * 16 + b1 / 16) ::
      b64idx (b1 % 16 * 4 + b2 / 64) :: b64idx (b2 % 64) :: base64Std rest

example : base64Std [104, 105] = ['a', 'G', 'k', '='] := by decide

def HostResponse.isSuccess : HostResponse → Bool
  | .success _ => true
  | _ => false

def HostResponse.isPermissionDenied : HostResponse → Bool
  | .permissionDenied _ => true
  | _ => false

lemma checkTimeout_false {st : SandboxState}
    (hdl : st.elapsedNs ≤ st.timeoutMs * 1000000) : checkTimeout st = false := by
  simp only [checkTimeout, decide_eq_false_iff_not, Nat.not_lt]
  omega

/-- C1: for every mediated host request (file read/write, directory
listing, environment lookup, time, UUID) whose required permission the
active set does not cover, and whose deadline has not elapsed,
`handle_request` returns exactly a `PermissionDenied` response, leaves
the state unchanged, and performs no side effect. -/
theorem handle_request_denies_uncovered (w : World) (st : SandboxState)
    (req : HostRequest) (perm : Permission)
    (hdl : st.elapsedNs ≤ st.timeoutMs * 1000000)
    (hreq : requiredPerm req = some perm)
    (hchk : st.permissions.check w.fs perm = false) :
    handle_request w st req = (.permissionDenied (deniedMsg req), st, []) := by
  have hct : checkTimeout st = false := checkTimeout_false hdl
  cases req with
  | readFile p =>
    simp only [requiredPerm, Option.some.injEq] at hreq
    subst hreq
    simp [handle_request, hct, hchk, deniedMsg]
  | writeFile p content =>
    simp only [requiredPerm, Option.some.injEq] at hreq
    subst hreq
    simp [handle_request, hct, hchk, deniedMsg]
  | listDir p =>
    simp only [requiredPerm, Option.some.injEq] at hreq
    subst hreq
    simp [handle_request, hct, hchk, deniedMsg]
  | getEnv n =>
    simp only [requiredPerm, Option.some.injEq] at hreq
    subst hreq
    simp [handle_request, hct, hchk, deniedMsg]
  | log lvl msg => simp [requiredPerm] at hreq
  | currentTime =>
    simp only [requiredPerm, Option.some.injEq] at hreq
    subst hreq
    simp [handle_request, hct, hchk, deniedMsg]
  | generateUuid =>
    simp only [requiredPerm, Option.some.injEq] at hreq
    subst hreq
    simp [handle_request, hct, hchk, deniedMsg]

def w1 : World := ⟨⟨[], [], []⟩, [], 0, "", "u"⟩

def st1 : SandboxState := ⟨[], [], none, 0, 30000⟩

theorem handle_request_denies_uncovered_witness :
    (0 : Nat) ≤ 30000 * 1000000 ∧
      handle_request w1 st1 (.readFile ⟨true, ["etc", "passwd"]⟩)
        = (.permissionDenied "read /etc/passwd", st1, []) := by
  refine ⟨by decide, ?_⟩
  rw [handle_request_denies_uncovered w1 st1
    (.readFile ⟨true, ["etc", "passwd"]⟩) (.readPath ⟨true, ["etc", "passwd"]⟩)
    (by decide) rfl (by decide)]
  rfl

/-- C6: whenever the elapsed wall-clock time strictly exceeds
`timeout_ms`, `handle_request` answers every request with the timeout
error response, leaves the state unchanged, and performs no side effect
of any kind. -/
theorem deadline_exceeded_no_side_effects (w : World) (st : SandboxState)
    (req : HostRequest) (h : st.elapsedNs > st.timeoutMs * 1000000) :
    handle_request w st req = (.error (timeoutMsg st.timeoutMs), st, []) := by
  have hct : checkTimeout st = true := by
    simp only [checkTimeout, decide_eq_true_eq]
    omega
  simp [handle_request, hct]

def w6 : World := ⟨⟨[], [(["tmp", "a"], [1])], [["tmp"]]⟩, [("HOME", "/root")], 7, "t", "u"⟩

def st6 : SandboxState :=
  ⟨[.readPath ⟨true, ["tmp"]⟩, .time, .allEnv], [], none, 60000000, 50⟩

theorem deadline_exceeded_no_side_effects_witness :
    (60000000 : Nat) > 50 * 1000000 ∧
      handle_request w6 st6 .currentTime
        = (.error "Timeout: plugin execution exceeded 50ms", st6, []) :=
  ⟨by decide, deadline_exceeded_no_side_effects w6 st6 .currentTime (by decide)⟩

/-- C9: `check_all` succeeds exactly when `missing` returns the empty
list; `missing` is the sublist of requested permissions failing `check`. -/
theorem check_all_iff_missing_nil (fs : FileSystem) (s requested : PermissionSet) :
    (s.check_all fs requested = true) ↔ s.missing fs requested = [] := by
  simp [PermissionSet.check_all, PermissionSet.missing, List.all_eq_true,
    List.filter_eq_nil_iff]

def w5 : World := ⟨⟨[], [], []⟩, [], 0, "", "u"⟩

def st5 : SandboxState := ⟨[], [], none, 0, 30000⟩

/-- C5 counterexample: under the empty permission set a `Log` request is
not denied — it appends to the log buffer (a side effect) and returns
`Success`, so the claim that no request returns `Success` and no effect
is performed is false as stated. -/
theorem log_succeeds_under_empty_permissions :
    handle_request w5 st5 (.log .info "x")
      = (.success none, ⟨[], [(.info, "x")], none, 0, 30000⟩, [.logAppend .info "x"]) := by
  rfl

def HostRequest.isLog : HostRequest → Bool
  | .log _ _ => true
  | _ => false

/-- C5 amended: under the empty permission set every host request other
than `Log` performs no side effect and never returns `Success` (it is
answered `PermissionDenied`, or by the timeout error when the deadline
has elapsed); `Log` alone is unmediated and still succeeds. -/
theorem empty_permissions_deny_all_but_log (w : World) (st : SandboxState)
    (req : HostRequest) (hperm : st.permissions = [])
    (hnl : req.isLog = false) :
    (handle_request w st req).1.isSuccess = false
      ∧ (handle_request w st req).2.2 = [] := by
  have hchk : ∀ p, st.permissions.check w.fs p = false := by
    intro p
    simp [PermissionSet.check, hperm]
  by_cases hct : checkTimeout st = true
  · simp [handle_request, hct, HostResponse.isSuccess]
  · have hct' : checkTimeout st = false := by
      cases h : checkTimeout st
      · rfl
      · exact absurd h hct
    cases req with
    | readFile p => simp [handle_request, hct', hchk, HostResponse.isSuccess]
    | writeFile p content => simp [handle_request, hct', hchk, HostResponse.isSuccess]
    | listDir p => simp [handle_request, hct', hchk, HostResponse.isSuccess]
    | getEnv n => simp [handle_request, hct', hchk, HostResponse.isSuccess]
    | log lvl msg => simp [HostRequest.isLog] at hnl
    | currentTime => simp [handle_request, hct', hchk, HostResponse.isSuccess]
    | generateUuid => simp [handle_request, hct', hchk, HostResponse.isSuccess]

def w5b : World := ⟨⟨[], [], []⟩, [], 9, "t", "u"⟩

def st5b : SandboxState := ⟨[], [], none, 0, 30000⟩

theorem empty_permissions_deny_all_but_log_witness :
    (handle_request w5b st5b .generateUuid).1.isSuccess = false
      ∧ (handle_request w5b st5b .generateUuid).2.2 = [] :=
  empty_permissions_deny_all_but_log w5b st5b .generateUuid rfl rfl

def w2 : World := ⟨⟨[], [], [["tmp"], ["tmp", "in"]]⟩, [], 0, "", "u"⟩

def st2 : SandboxState :=
  ⟨[.readPath ⟨true, ["tmp", "in"]⟩], [], none, 0, 30000⟩

def p2 : MPath := ⟨true, ["tmp", "in", "..", "..", "etc", "passwd"]⟩

/-- C2 counterexample: the path `/tmp/in/../../etc/passwd` names
`/etc/passwd`, outside the sole granted root `/tmp/in`, and does not
canonicalise (nothing exists at the resolved location) — yet the request
is not denied: the literal-path fallback of `path_covers` accepts it, the
read syscall is attempted, and the observable result is an `Error`
response, not `PermissionDenied`. -/
theorem readFile_nonexistent_escape_not_denied :
    canonicalize w2.fs p2 = none
      ∧ normComps (absComps w2.fs p2) = ["etc", "passwd"]
      ∧ handle_request w2 st2 (.readFile p2)
          = (.error "Failed to read file: /tmp/in/../../etc/passwd", st2, [.fsRead p2])
      ∧ (handle_request w2 st2 (.readFile p2)).1.isPermissionDenied = false := by
  exact ⟨rfl, rfl, rfl, rfl⟩

/-- C2 amended: a `ReadFile` request for a path that canonicalises (the
resolved location exists) to a location that is neither equal to nor
under any granted `ReadPath` root (each root taken canonicalised, with
the literal fallback of `path_covers`) is answered exactly
`PermissionDenied`, with no side effect; the original claim's
"regardless of whether the file exists" does not hold, because a path
that fails to canonicalise is compared literally. -/
theorem readFile_denied_outside_roots (w : World) (st : SandboxState)
    (p q : MPath) (hdl : st.elapsedNs ≤ st.timeoutMs * 1000000)
    (hcanon : canonicalize w.fs p = some q)
    (hout : ∀ g, Permission.readPath g ∈ st.permissions →
      q ≠ (canonicalize w.fs g).getD g
        ∧ pathStartsWith q ((canonicalize w.fs g).getD g) = false) :
    handle_request w st (.readFile p)
      = (.permissionDenied ("read " ++ renderPath p), st, []) := by
  have hct : checkTimeout st = false := checkTimeout_false hdl
  have hchk : st.permissions.check w.fs (.readPath p) = false := by
    simp only [PermissionSet.check, List.any_eq_false]
    intro perm hmem
    cases perm with
    | readPath g =>
      have hg1 := (hout g hmem).1
      have hg2 := (hout g hmem).2
      by_cases he : g = p
      · subst he
        rw [hcanon] at hg1
        simp at hg1
      · simp only [Permission.covers, Permission.readPath.injEq, if_neg he]
        simp only [path_covers, hcanon, Option.getD_some]
        simp [hg1, hg2]
    | writePath g => simp [Permission.covers]
    | env n => simp [Permission.covers]
    | allEnv => simp [Permission.covers]
    | network h port => simp [Permission.covers]
    | execute cmd => simp [Permission.covers]
    | time => simp [Permission.covers]
    | random => simp [Permission.covers]
  simp [handle_request, hct, hchk]

def w2b : World :=
  ⟨⟨[], [(["etc", "passwd"], [114, 111, 111, 116])], [["tmp"], ["tmp", "in"]]⟩, [], 0, "", "u"⟩

theorem readFile_denied_outside_roots_witness :
    canonicalize w2b.fs p2 = some ⟨true, ["etc", "passwd"]⟩
      ∧ handle_request w2b st2 (.readFile p2)
          = (.permissionDenied "read /tmp/in/../../etc/passwd", st2, []) := by
  refine ⟨rfl, ?_⟩
  rw [readFile_denied_outside_roots w2b st2 p2 ⟨true, ["etc", "passwd"]⟩
    (by decide) rfl ?_]
  · rfl
  · intro g hg
    simp only [st2, List.mem_singleton, Permission.readPath.injEq] at hg
    subst hg
    exact ⟨by decide, by decide⟩

lemma covers_readPath (fs : FileSystem) (a b : MPath) :
    Permission.covers fs (.readPath a) (.readPath b) = path_covers fs a b := by
  by_cases h : a = b
  · subst h
    simp [Permission.covers, path_covers]
  · simp [Permission.covers, h]

lemma covers_writePath (fs : FileSystem) (a b : MPath) :
    Permission.covers fs (.writePath a) (.writePath b) = path_covers fs a b := by
  by_cases h : a = b
  · subst h
    simp [Permission.covers, path_covers]
  · simp [Permission.covers, h]

lemma path_covers_trans (fs : FileSystem) (a b c : MPath)
    (h1 : path_covers fs a b = true) (h2 : path_covers fs b c = true) :
    path_covers fs a c = true := by
  simp only [path_covers, Bool.or_eq_true, decide_eq_true_eq, pathStartsWith,
    Bool.and_eq_true, List.isPrefixOf_iff_prefix] at h1 h2 ⊢
  rcases h1 with h1 | h1
  · rcases h2 with h2 | h2
    · left
      exact h2.trans h1
    · right
      rw [h1] at h2
      exact h2
  · rcases h2 with h2 | h2
    · right
      rw [← h2] at h1
      exact h1
    · right
      exact ⟨h2.1.trans h1.1, h1.2.trans h2.2⟩

/-- C7: permission coverage is reflexive; `ReadPath` and `WritePath`
coverage is transitive along the directory-prefix relation; `AllEnv`
covers every `Env(name)`; and a portless `Network` grant covers the same
host at every port. -/
theorem coverage_algebra :
    (∀ (fs : FileSystem) (p : Permission), p.covers fs p = true)
      ∧ (∀ (fs : FileSystem) (a b c : MPath),
          Permission.covers fs (.readPath a) (.readPath b) = true →
          Permission.covers fs (.readPath b) (.readPath c) = true →
          Permission.covers fs (.readPath a) (.readPath c) = true)
      ∧ (∀ (fs : FileSystem) (a b c : MPath),
          Permission.covers fs (.writePath a) (.writePath b) = true →
          Permission.covers fs (.writePath b) (.writePath c) = true →
          Permission.covers fs (.writePath a) (.writePath c) = true)
      ∧ (∀ (fs : FileSystem) (n : String), Permission.covers fs .allEnv (.env n) = true)
      ∧ (∀ (fs : FileSystem) (h : String) (port : Nat),
          Permission.covers fs (.network h none) (.network h (some port)) = true) := by
  refine ⟨?_, ?_, ?_, ?_, ?_⟩
  · intro fs p
    simp [Permission.covers]
  · intro fs a b c h1 h2
    rw [covers_readPath] at h1 h2 ⊢
    exact path_covers_trans fs a b c h1 h2
  · intro fs a b c h1 h2
    rw [covers_writePath] at h1 h2 ⊢
    exact path_covers_trans fs a b c h1 h2
  · intro fs n
    simp [Permission.covers]
  · intro fs h port
    simp [Permission.covers]

def fs7 : FileSystem := ⟨[], [], []⟩

theorem coverage_algebra_witness :
    Permission.covers fs7 (.readPath ⟨true, ["a"]⟩) (.readPath ⟨true, ["a", "b"]⟩) = true
      ∧ Permission.covers fs7 (.readPath ⟨true, ["a"]⟩)
          (.readPath ⟨true, ["a", "b", "c"]⟩) = true :=
  ⟨by decide,
    coverage_algebra.2.1 fs7 ⟨true, ["a"]⟩ ⟨true, ["a", "b"]⟩ ⟨true, ["a", "b", "c"]⟩
      (by decide) (by decide)⟩

/-- C3: evaluating the trap-classification branch of `Sandbox::execute`
at its failing inputs. With `fuel_limit = None` (so `get_fuel` fails and
`unwrap_or(0)` yields 0) a trap with message `"wasm trap: unreachable"`
and an unelapsed deadline is reported as `ResourceLimitExceeded`, while
the classification the claim states yields `ExecutionFailed` with the
trap message; and with fuel remaining and the deadline elapsed the code
yields `ExecutionFailed` where the claim requires `Timeout` — the code
has no timeout branch at all. -/
theorem classifyTrap_diverges_from_claim :
    classifyTrap ⟨"wasm trap: unreachable", none, false⟩
        = .resourceLimitExceeded "Instruction limit exceeded"
      ∧ classifyTrapSpec 30000 ⟨"wasm trap: unreachable", none, false⟩
        = .executionFailed "wasm trap: unreachable"
      ∧ classifyTrap ⟨"wasm trap: interrupt", some 5, true⟩
        = .executionFailed "wasm trap: interrupt"
      ∧ classifyTrapSpec 30000 ⟨"wasm trap: interrupt", some 5, true⟩
        = .timeout 30000 := by
  decide

def sbc4 : SandboxConfigM := ⟨67108864, 30000, none, [], none⟩

def inst4 : PluginInstanceM :=
  ⟨⟨"plugins/p.wasm", some "p", true, sbc4⟩, "p", ⟨["run"]⟩, ["run"]⟩

def host4 : Registry := [("p", inst4)]

def env4 : LoadEnv :=
  ⟨fun _ => .ok (), fun _ => .error (.loadFailed "boom")⟩

/-- C4: evaluating `reload_plugin` at a registry holding plugin `p`
whose module no longer loads: the unload step removes `p` first, the
load step then fails, and the registry is left without the original
instance — the reload is not atomic. -/
theorem reload_plugin_drops_plugin_on_failed_load :
    lookupReg host4 "p" = some inst4
      ∧ reload_plugin env4 host4 "p" = ([], .error (.loadFailed "boom"))
      ∧ lookupReg (reload_plugin env4 host4 "p").1 "p" = none :=
  ⟨rfl, rfl, rfl⟩

/-- C10: the success or failure of `load_plugin` is independent of the
registry contents — in particular a duplicate id never causes a failure
— and on success the registry maps the assigned id to the freshly built
instance (the previous binding, if any, is replaced). -/
theorem load_plugin_replaces_duplicate_id :
    (∀ (env : LoadEnv) (p1 p2 : Registry) (c : PluginConfigM),
        (load_plugin env p1 c).isOk = (load_plugin env p2 c).isOk)
      ∧ (∀ (env : LoadEnv) (plugins : Registry) (c : PluginConfigM)
          (reg : Registry) (id : String),
          load_plugin env plugins c = .ok (reg, id) →
          id = c.get_id
            ∧ lookupReg reg id
                = (env.loadModuleFromFile c.path).toOption.map
                    (fun m => mkInstance c m)) := by
  constructor
  · intro env p1 p2 c
    by_cases he : c.enabled
    · cases hsn : env.sandboxNew c.sandbox with
      | error e => simp [load_plugin, he, hsn]
      | ok u =>
        cases hlm : env.loadModuleFromFile c.path with
        | error e => simp [load_plugin, he, hsn, hlm]
        | ok m => simp [load_plugin, he, hsn, hlm, Except.isOk, Except.toBool]
    · simp [load_plugin, he]
  · intro env plugins c reg id h
    by_cases he : c.enabled
    · cases hsn : env.sandboxNew c.sandbox with
      | error e => simp [load_plugin, he, hsn] at h
      | ok u =>
        cases hlm : env.loadModuleFromFile c.path with
        | error e => simp [load_plugin, he, hsn, hlm] at h
        | ok m =>
          simp only [load_plugin, he, hsn, hlm, Bool.not_true, Bool.false_eq_true,
            if_false, Except.ok.injEq, Prod.mk.injEq] at h
          obtain ⟨h1, h2⟩ := h
          subst h1
          subst h2
          refine ⟨rfl, ?_⟩
          simp [lookupReg, insertReg, Except.toOption]
    · simp [load_plugin, he] at h

def env10 : LoadEnv :=
  ⟨fun _ => .ok (), fun _ => .ok ⟨["run", "_internal"]⟩⟩

def c10cfg : PluginConfigM := ⟨"plugins/p.wasm", some "p", true, sbc4⟩

def old10 : PluginInstanceM :=
  ⟨⟨"plugins/old.wasm", some "p", true, sbc4⟩, "p", ⟨["old"]⟩, ["old"]⟩

def host10 : Registry := [("p", old10)]

def reg10 : Registry := [("p", mkInstance c10cfg ⟨["run", "_internal"]⟩)]

theorem load_plugin_replaces_duplicate_id_witness :
    (load_plugin env10 host10 c10cfg).isOk = (load_plugin env10 [] c10cfg).isOk
      ∧ ("p" = c10cfg.get_id
          ∧ lookupReg reg10 "p"
              = (env10.loadModuleFromFile c10cfg.path).toOption.map
                  (fun m => mkInstance c10cfg m)) :=
  ⟨load_plugin_replaces_duplicate_id.1 env10 host10 [] c10cfg,
    load_plugin_replaces_duplicate_id.2 env10 host10 c10cfg reg10 "p" rfl⟩

lemma shl_or_eq_add (a : Nat) : ∀ (k b : Nat), b < 2 ^ k →
    (a <<< k) ||| b = a * 2 ^ k + b := by
  intro k
  induction k with
  | zero =>
    intro b hb
    have hb0 : b = 0 := by omega
    subst hb0
    simp [Nat.shiftLeft_eq]
  | succ k ih =>
    intro b hb
    have hpow : 2 ^ (k + 1) = 2 * 2 ^ k := by
      rw [Nat.pow_succ]
      ring
    have hshift : a <<< (k + 1) = 2 * (a <<< k) := by
      simp only [Nat.shiftLeft_eq, hpow]
      ring
    have hdiv : ((a <<< (k + 1)) ||| b) / 2 = (a <<< k) ||| (b / 2) := by
      rw [Nat.or_div_two, hshift, Nat.mul_div_cancel_left _ (by norm_num)]
    have hb2 : b / 2 < 2 ^ k := by omega
    have hih := ih (b / 2) hb2
    have heven : (a <<< (k + 1)) % 2 = 0 := by
      rw [hshift]
      omega
    have hmod : ((a <<< (k + 1)) ||| b) % 2 = b % 2 := by
      have hiff := @Nat.or_mod_two_eq_one (a <<< (k + 1)) b
      rcases Nat.mod_two_eq_zero_or_one b with hb1 | hb1
      · rcases Nat.mod_two_eq_zero_or_one ((a <<< (k + 1)) ||| b) with hc | hc
        · omega
        · have := hiff.mp hc
          omega
      · have := hiff.mpr (Or.inr hb1)
        omega
    have hsplit : (a <<< (k + 1)) ||| b
        = 2 * (((a <<< (k + 1)) ||| b) / 2) + ((a <<< (k + 1)) ||| b) % 2 := by
      omega
    rw [hsplit, hdiv, hih, hmod]
    rw [hpow]
    ring_nf
    omega

lemma mul_pow_or_eq_add (x b k : Nat) (h : b < 2 ^ k) :
    (x * 2 ^ k) ||| b = x * 2 ^ k + b := by
  have hs := shl_or_eq_add x k b h
  rwa [Nat.shiftLeft_eq] at hs

lemma chunkWord_one_val (b0 : Nat) : chunkWord [b0] = b0 * 65536 := by
  have h : chunkWord [b0] = 0 ||| b0 <<< 16 := rfl
  rw [h, Nat.zero_or, Nat.shiftLeft_eq]

lemma chunkWord_two_val (b0 b1 : Nat) (h1 : b1 < 256) :
    chunkWord [b0, b1] = b0 * 65536 + b1 * 256 := by
  have h : chunkWord [b0, b1] = (0 ||| b0 <<< 16) ||| b1 <<< 8 := rfl
  rw [h, Nat.zero_or, Nat.shiftLeft_eq, Nat.shiftLeft_eq]
  have hb : b1 * 2 ^ 8 < 2 ^ 16 := by
    norm_num
    omega
  rw [mul_pow_or_eq_add b0 (b1 * 2 ^ 8) 16 hb]
  norm_num

lemma chunkWord_three_val (b0 b1 b2 : Nat) (h1 : b1 < 256) (h2 : b2 < 256) :
    chunkWord [b0, b1, b2] = b0 * 65536 + b1 * 256 + b2 := by
  have h : chunkWord [b0, b1, b2] = ((0 ||| b0 <<< 16) ||| b1 <<< 8) ||| b2 <<< 0 := rfl
  rw [h, Nat.zero_or, Nat.shiftLeft_eq, Nat.shiftLeft_eq, Nat.shiftLeft_eq]
  have hb : b1 * 2 ^ 8 < 2 ^ 16 := by
    norm_num
    omega
  rw [mul_pow_or_eq_add b0 (b1 * 2 ^ 8) 16 hb]
  have he : b0 * 2 ^ 16 + b1 * 2 ^ 8 = (b0 * 256 + b1) * 2 ^ 8 := by
    norm_num
    ring
  rw [he]
  have hb2 : b2 * 2 ^ 0 < 2 ^ 8 := by
    norm_num
    omega
  rw [mul_pow_or_eq_add (b0 * 256 + b1) (b2 * 2 ^ 0) 8 hb2]
  norm_num
  ring

lemma and63_eq_mod (x : Nat) : x &&& 63 = x % 64 := by
  have h : (63 : Nat) = 2 ^ 6 - 1 := rfl
  rw [h, Nat.and_pow_two_sub_one_eq_mod]

lemma encodeChunk_one (b0 : Nat) (h0 : b0 < 256) :
    encodeChunk [b0] = [b64idx (b0 / 4), b64idx (b0 % 4 * 16), '=', '='] := by
  have hu : encodeChunk [b0]
      = [ALPHABET.getD ((chunkWord [b0] >>> 18) &&& 63) 'A',
         ALPHABET.getD ((chunkWord [b0] >>> 12) &&& 63) 'A', '=', '='] := rfl
  rw [hu, chunkWord_one_val b0]
  have e1 : ((b0 * 65536) >>> 18) &&& 63 = b0 / 4 := by
    rw [Nat.shiftRight_eq_div_pow, and63_eq_mod]
    norm_num
    omega
  have e2 : ((b0 * 65536) >>> 12) &&& 63 = b0 % 4 * 16 := by
    rw [Nat.shiftRight_eq_div_pow, and63_eq_mod]
    norm_num
    omega
  rw [e1, e2]
  rfl

lemma encodeChunk_two (b0 b1 : Nat) (h0 : b0 < 256) (h1 : b1 < 256) :
    encodeChunk [b0, b1]
      = [b64idx (b0 / 4), b64idx (b0 % 4 * 16 + b1 / 16), b64idx (b1 % 16 * 4), '='] := by
  have hu : encodeChunk [b0, b1]
      = [ALPHABET.getD ((chunkWord [b0, b1] >>> 18) &&& 63) 'A',
         ALPHABET.getD ((chunkWord [b0, b1] >>> 12) &&& 63) 'A',
         ALPHABET.getD ((chunkWord [b0, b1] >>> 6) &&& 63) 'A', '='] := rfl
  rw [hu, chunkWord_two_val b0 b1 h1]
  have e1 : ((b0 * 65536 + b1 * 256) >>> 18) &&& 63 = b0 / 4 := by
    rw [Nat.shiftRight_eq_div_pow, and63_eq_mod]
    norm_num
    omega
  have e2 : ((b0 * 65536 + b1 * 256) >>> 12) &&& 63 = b0 % 4 * 16 + b1 / 16 := by
    rw [Nat.shiftRight_eq_div_pow, and63_eq_mod]
    norm_num
    omega
  have e3 : ((b0 * 65536 + b1 * 256) >>> 6) &&& 63 = b1 % 16 * 4 := by
    rw [Nat.shiftRight_eq_div_pow, and63_eq_mod]
    norm_num
    omega
  rw [e1, e2, e3]
  rfl

lemma encodeChunk_three (b0 b1 b2 : Nat) (h0 : b0 < 256) (h1 : b1 < 256) (h2 : b2 < 256) :
    encodeChunk [b0, b1, b2]
      = [b64idx (b0 / 4), b64idx (b0 % 4 * 16 + b1 / 16),
         b64idx (b1 % 16 * 4 + b2 / 64), b64idx (b2 % 64)] := by
  have hu : encodeChunk [b0, b1, b2]
      = [ALPHABET.getD ((chunkWord [b0, b1, b2] >>> 18) &&& 63) 'A',
         ALPHABET.getD ((chunkWord [b0, b1, b2] >>> 12) &&& 63) 'A',
         ALPHABET.getD ((chunkWord [b0, b1, b2] >>> 6) &&& 63) 'A',
         ALPHABET.getD ((chunkWord [b0, b1, b2] >>> 0) &&& 63) 'A'] := rfl
  rw [hu, chunkWord_three_val b0 b1 b2 h1 h2]
  have e1 : ((b0 * 65536 + b1 * 256 + b2) >>> 18) &&& 63 = b0 / 4 := by
    rw [Nat.shiftRight_eq_div_pow, and63_eq_mod]
    norm_num
    omega
  have e2 : ((b0 * 65536 + b1 * 256 + b2) >>> 12) &&& 63 = b0 % 4 * 16 + b1 / 16 := by
    rw [Nat.shiftRight_eq_div_pow, and63_eq_mod]
    norm_num
    omega
  have e3 : ((b0 * 65536 + b1 * 256 + b2) >>> 6) &&& 63 = b1 % 16 * 4 + b2 / 64 := by
    rw [Nat.shiftRight_eq_div_pow, and63_eq_mod]
    norm_num
    omega
  have e4 : ((b0 * 65536 + b1 * 256 + b2) >>> 0) &&& 63 = b2 % 64 := by
    rw [Nat.shiftRight_eq_div_pow, and63_eq_mod]
    norm_num
    omega
  rw [e1, e2, e3, e4]
  rfl

lemma b64chunks_agree : ∀ (data : List Nat), (∀ b ∈ data, b < 256) →
    ((chunks3 data).map encodeChunk).flatten = base64Std data := by
  intro data
  induction data using chunks3.induct with
  | case1 =>
    intro h
    rfl
  | case2 a =>
    intro h
    have ha : a < 256 := h a (by simp)
    simp [chunks3, base64Std, encodeChunk_one a ha]
  | case3 a b =>
    intro h
    have ha : a < 256 := h a (by simp)
    have hb : b < 256 := h b (by simp)
    simp [chunks3, base64Std, encodeChunk_two a b ha hb]
  | case4 a b c rest ih =>
    intro h
    have ha : a < 256 := h a (by simp)
    have hb : b < 256 := h b (by simp)
    have hc : c < 256 := h c (by simp)
    have ih' := ih (fun x hx => h x (by simp [hx]))
    simp [chunks3, base64Std, encodeChunk_three a b c ha hb hc, ih']

/-- C8: a `ReadFile` request that passes the permission check and finds
the file returns `Success` carrying the file bytes base64-encoded under
`content` and the decoded byte count under `size`; and the repository's
hand-rolled base64 encoder agrees with the standard base64 definition
(standard alphabet, `=` padding) on every byte sequence. -/
theorem readFile_payload_base64 :
    (∀ (w : World) (st : SandboxState) (p : MPath) (content : List Nat),
        st.elapsedNs ≤ st.timeoutMs * 1000000 →
        st.permissions.check w.fs (.readPath p) = true →
        readFileFS w.fs p = some content →
        handle_request w st (.readFile p)
          = (.success (some (.obj [("content", .str (b64encode content)),
              ("size", .num content.length)])), st, [.fsRead p]))
      ∧ (∀ data : List Nat, (∀ b ∈ data, b < 256) →
          b64encode data = String.mk (base64Std data)) := by
  constructor
  · intro w st p content hdl hchk hread
    have hct : checkTimeout st = false := checkTimeout_false hdl
    simp [handle_request, hct, hchk, hread]
  · intro data h
    unfold b64encode
    rw [b64chunks_agree data h]

def w8 : World :=
  ⟨⟨[], [(["tmp", "in", "a.txt"], [104, 105])], [["tmp"], ["tmp", "in"]]⟩, [], 0, "", "u"⟩

def st8 : SandboxState :=
  ⟨[.readPath ⟨true, ["tmp", "in"]⟩, .time], [], none, 0, 30000⟩

def p8 : MPath := ⟨true, ["tmp", "in", "a.txt"]⟩

theorem readFile_payload_base64_witness :
    handle_request w8 st8 (.readFile p8)
        = (.success (some (.obj [("content", .str "aGk="), ("size", .num 2)])),
            st8, [.fsRead p8])
      ∧ b64encode [104, 105] = String.mk (base64Std [104, 105]) := by
  constructor
  · rw [readFile_payload_base64.1 w8 st8 p8 [104, 105] (by decide) (by decide) rfl]
    rfl
  · exact readFile_payload_base64.2 [104, 105] (by decide)
